import Mathlib

/-!
Verification of the `ai-code-guardian` static-analysis engine
(`src/code_guardian/analyzer.py`, `src/code_guardian/bug_pattern_detector.py`).

The Python code works on `ast` syntax trees: it traverses them with
`ast.walk` (a breadth-first walk: a queue starts at the root, each popped
node is yielded and its children are appended to the queue) and matches
node types with `isinstance`.  We embed the syntax-node kinds those
traversals inspect as the inductive type `Node`, `ast.iter_child_nodes`
as `children`, and `ast.walk` as `walk`.  Simplifications that no
inspected predicate can observe: the `arguments` wrapper node, `arg`
nodes, `alias` nodes and boolean-operator tag nodes are omitted (no
`isinstance` check in the repository matches them), and the `kw_defaults`
list keeps only the present defaults (`ast.iter_child_nodes` skips the
`None` entries).
-/

namespace CodeGuardian

/-- Python `ast` nodes, restricted to the node kinds the repository's
traversals build or inspect.  Field order inside each constructor follows
the `_fields` order of the corresponding `ast` class, which is the order
`ast.iter_child_nodes` yields children in. -/
inductive Node where
  | module (body : List Node)
  | functionDef (name : String) (defaults : List Node) (kwDefaults : List Node)
      (body : List Node)
  | classDef (name : String) (body : List Node)
  | ifStmt (test : Node) (body : List Node) (orelse : List Node)
  | whileStmt (test : Node) (body : List Node) (orelse : List Node)
  | forStmt (target : Node) (iter : Node) (body : List Node) (orelse : List Node)
  | tryStmt (body : List Node) (handlers : List Node) (orelse : List Node)
      (finalbody : List Node)
  | exceptHandler (htype : Option Node) (body : List Node)
  | boolOp (values : List Node)
  | importStmt (names : List String)
  | importFrom (module : Option String) (names : List String)
  | call (func : Node) (args : List Node)
  | attribute (value : Node) (attr : String)
  | name (id : String)
  | constant (value : String)
  | listLit (elts : List Node)
  | dictLit (keys : List Node) (values : List Node)
  | setLit (elts : List Node)
  | assign (targets : List Node) (value : Node)
  | ret (value : Option Node)
  | withStmt (ctx : Node) (optionalVars : Option Node) (body : List Node)
  | exprStmt (value : Node)
  | pass

/-- Embedding of `ast.iter_child_nodes`: the child nodes of one node, in
field order. -/
def children : Node → List Node
  | .module body => body
  | .functionDef _ defaults kwDefaults body => kwDefaults ++ defaults ++ body
  | .classDef _ body => body
  | .ifStmt test body orelse => test :: (body ++ orelse)
  | .whileStmt test body orelse => test :: (body ++ orelse)
  | .forStmt target iter body orelse => target :: iter :: (body ++ orelse)
  | .tryStmt body handlers orelse finalbody => body ++ handlers ++ orelse ++ finalbody
  | .exceptHandler htype body => htype.toList ++ body
  | .boolOp values => values
  | .importStmt _ => []
  | .importFrom _ _ => []
  | .call func args => func :: args
  | .attribute value _ => [value]
  | .name _ => []
  | .constant _ => []
  | .listLit elts => elts
  | .dictLit keys values => keys ++ values
  | .setLit elts => elts
  | .assign targets value => targets ++ [value]
  | .ret value => value.toList
  | .withStmt ctx optionalVars body => ctx :: (optionalVars.toList ++ body)
  | .exprStmt value => [value]
  | .pass => []

mutual

/-- Number of nodes in a tree (used only as a termination measure for the
breadth-first walk); each case is one plus the sizes of the children in
`children` order. -/
def nsize : Node → Nat
  | .module body => 1 + nsizeList body
  | .functionDef _ defaults kwDefaults body =>
      1 + (nsizeList kwDefaults + nsizeList defaults + nsizeList body)
  | .classDef _ body => 1 + nsizeList body
  | .ifStmt test body orelse => 1 + (nsize test + (nsizeList body + nsizeList orelse))
  | .whileStmt test body orelse => 1 + (nsize test + (nsizeList body + nsizeList orelse))
  | .forStmt target iter body orelse =>
      1 + (nsize target + (nsize iter + (nsizeList body + nsizeList orelse)))
  | .tryStmt body handlers orelse finalbody =>
      1 + (nsizeList body + nsizeList handlers + nsizeList orelse + nsizeList finalbody)
  | .exceptHandler htype body => 1 + (nsizeOpt htype + nsizeList body)
  | .boolOp values => 1 + nsizeList values
  | .importStmt _ => 1
  | .importFrom _ _ => 1
  | .call func args => 1 + (nsize func + nsizeList args)
  | .attribute value _ => 1 + (nsize value + 0)
  | .name _ => 1
  | .constant _ => 1
  | .listLit elts => 1 + nsizeList elts
  | .dictLit keys values => 1 + (nsizeList keys + nsizeList values)
  | .setLit elts => 1 + nsizeList elts
  | .assign targets value => 1 + (nsizeList targets + (nsize value + 0))
  | .ret value => 1 + nsizeOpt value
  | .withStmt ctx optionalVars body =>
      1 + (nsize ctx + (nsizeOpt optionalVars + nsizeList body))
  | .exprStmt value => 1 + (nsize value + 0)
  | .pass => 1

/-- Sum of the sizes of a list of nodes. -/
def nsizeList : List Node → Nat
  | [] => 0
  | n :: l => nsize n + nsizeList l

/-- Size of an optional node. -/
def nsizeOpt : Option Node → Nat
  | none => 0
  | some n => nsize n

end

def nsizeList_append : ∀ l₁ l₂ : List Node,
    nsizeList (l₁ ++ l₂) = nsizeList l₁ + nsizeList l₂ := by
  intro l₁ l₂
  induction l₁ with
  | nil => simp [nsizeList]
  | cons n l ih => simp [nsizeList, ih]; omega

def nsizeOpt_toList : ∀ o : Option Node, nsizeList o.toList = nsizeOpt o := by
  intro o
  cases o <;> simp [nsizeList, nsizeOpt]

def nsize_eq_children : ∀ n : Node, nsize n = 1 + nsizeList (children n) := by
  intro n
  cases n <;>
    simp [nsize, children, nsizeList, nsizeList_append, nsizeOpt_toList] <;>
    omega

/-- Embedding of `ast.walk`'s queue loop: pop the front node, yield it,
append its children to the queue. -/
def walkAux : List Node → List Node
  | [] => []
  | n :: rest => n :: walkAux (rest ++ children n)
termination_by l => nsizeList l
decreasing_by
  simp [nsizeList, nsizeList_append]
  have h := nsize_eq_children n
  omega

/-- Embedding of `ast.walk(tree)`: all nodes of the tree in breadth-first
order, the root first. -/
def walk (tree : Node) : List Node :=
  walkAux [tree]

/-- The branch-node test of `CodeAnalyzer._calculate_complexity`:
`isinstance(node, (ast.If, ast.While, ast.For, ast.ExceptHandler))`. -/
def isBranchNode : Node → Bool
  | .ifStmt _ _ _ => true
  | .whileStmt _ _ _ => true
  | .forStmt _ _ _ _ => true
  | .exceptHandler _ _ => true
  | _ => false

/-- The test `isinstance(node, ast.BoolOp)`. -/
def isBoolOpNode : Node → Bool
  | .boolOp _ => true
  | _ => false

/-- The test `isinstance(node, ast.FunctionDef)`. -/
def isFunctionDefNode : Node → Bool
  | .functionDef _ _ _ _ => true
  | _ => false

/-- The test `isinstance(node, ast.ClassDef)`. -/
def isClassDefNode : Node → Bool
  | .classDef _ _ => true
  | _ => false

/-- Per-node increment of the loop body of
`CodeAnalyzer._calculate_complexity`: a branch node adds 1, a `BoolOp`
node adds `len(node.values) - 1` (Python integer arithmetic, hence
`Int`), every other node adds nothing. -/
def complexityContrib (n : Node) : Int :=
  if isBranchNode n then 1
  else
    match n with
    | .boolOp values => (values.length : Int) - 1
    | _ => 0

/-- Embedding of `CodeAnalyzer._calculate_complexity`: start at 1 and
accumulate the increments over `ast.walk(tree)`. -/
def calculate_complexity (tree : Node) : Int :=
  (walk tree).foldl (fun c n => c + complexityContrib n) 1

/-- Embedding of `CodeAnalyzer._count_functions`:
`sum(1 for node in ast.walk(tree) if isinstance(node, ast.FunctionDef))`. -/
def count_functions (tree : Node) : Nat :=
  (walk tree).countP isFunctionDefNode

/-- Embedding of `CodeAnalyzer._count_classes`. -/
def count_classes (tree : Node) : Nat :=
  (walk tree).countP isClassDefNode

/-- Per-node contribution of `CodeAnalyzer._extract_imports`: an `Import`
appends each alias name; an `ImportFrom` appends
`f"{module}.{name}"` for each alias, where `module = node.module or ''`
(so an absent/relative module contributes the empty string). -/
def importEntries : Node → List String
  | .importStmt names => names
  | .importFrom module names =>
      names.map fun x => (match module with | some m => m | none => "") ++ "." ++ x
  | _ => []

/-- Embedding of `CodeAnalyzer._extract_imports`: the entries accumulated
over `ast.walk(tree)`. -/
def extract_imports (tree : Node) : List String :=
  (walk tree).flatMap importEntries

/-- Result of `ast.parse` on a source text: the tree, or the
`SyntaxError` it raises (represented by its message). -/
inductive ParseResult where
  | ok (tree : Node)
  | syntaxError (msg : String)

/-- What `CodeAnalyzer._analyze_python` returns: either the four numeric
metrics, or the `syntax_error` entry that replaces them entirely. -/
inductive PyAnalysis where
  | metrics (complexity : Int) (functions : Nat) (classes : Nat)
      (imports : List String)
  | syntaxError (msg : String)
deriving DecidableEq

/-- Embedding of `CodeAnalyzer._analyze_python`: on a successful parse the
four metrics, on a `SyntaxError` the `{"syntax_error": str(e)}`
dictionary. -/
def analyze_python : ParseResult → PyAnalysis
  | .ok tree =>
      .metrics (calculate_complexity tree) (count_functions tree)
        (count_classes tree) (extract_imports tree)
  | .syntaxError m => .syntaxError m

/-- A source text, represented by the text-level quantities the analyzer
derives from it, each a pure function of the text: the count of
newline-delimited segments (`len(code.split('\n'))`), the result of
`ast.parse`, and the three regex match counts of
`_analyze_javascript`. -/
structure Source where
  lineCount : Nat
  parse : ParseResult
  jsFunctionMatches : Nat
  jsArrowMatches : Nat
  jsClassMatches : Nat

/-- What `CodeAnalyzer._analyze_javascript` returns. -/
structure JsAnalysis where
  functions : Nat
  arrowFunctions : Nat
  classes : Nat
deriving DecidableEq

/-- Embedding of `CodeAnalyzer._analyze_javascript`. -/
def analyze_javascript (s : Source) : JsAnalysis :=
  ⟨s.jsFunctionMatches, s.jsArrowMatches, s.jsClassMatches⟩

/-- The dictionary `CodeAnalyzer._analyze_code` returns: the four base
keys it always sets, plus the Python or JavaScript analysis merged in by
`results.update(...)` when the extension matches (`none` when absent). -/
structure AnalyzeResult where
  lines_of_code : Nat
  file_type : String
  issues : List String
  metrics : List (String × Int)
  pyAnalysis : Option PyAnalysis
  jsAnalysis : Option JsAnalysis

/-- Instance state of a `CodeAnalyzer` (`self.results`, `self.metrics`);
`_analyze_code` neither reads nor writes either field. -/
structure AnalyzerState where
  results : List AnalyzeResult
  metricsState : List (String × Int)

/-- Embedding of `CodeAnalyzer._analyze_code`, with the instance state
threaded explicitly. -/
def analyze_code (st : AnalyzerState) (s : Source) (file_extension : String) :
    AnalyzeResult × AnalyzerState :=
  (⟨s.lineCount, file_extension, [], [],
    if file_extension = ".py" then some (analyze_python s.parse) else none,
    if file_extension = ".js" ∨ file_extension = ".ts" then
      some (analyze_javascript s)
    else none⟩,
   st)

/-- A finding dictionary as `BugPatternDetector` appends it to
`self.patterns`: keys `type`, `severity`, `description`, and (for the
mutable-default check) `function`. -/
structure Finding where
  type : String
  severity : String
  description : String
  function : Option String := none
deriving DecidableEq

/-- The finding `_check_bare_except` appends for a bare handler. -/
def bareExceptFinding : Finding :=
  { type := "Bare Except Clause", severity := "MEDIUM",
    description := "Bare except catches all exceptions, including system exits" }

/-- Per-node contribution of `BugPatternDetector._check_bare_except`: an
`ExceptHandler` whose `type` is `None` yields one finding. -/
def bareExceptEntries (n : Node) : List Finding :=
  match n with
  | .exceptHandler htype _ =>
      match htype with
      | none => [bareExceptFinding]
      | some _ => []
  | _ => []

/-- Embedding of `BugPatternDetector._check_bare_except`: one finding per
bare `ExceptHandler`, in walk order. -/
def check_bare_except (tree : Node) : List Finding :=
  (walk tree).flatMap bareExceptEntries

/-- The test `isinstance(arg, (ast.List, ast.Dict, ast.Set))`. -/
def isMutableLiteral : Node → Bool
  | .listLit _ => true
  | .dictLit _ _ => true
  | .setLit _ => true
  | _ => false

/-- The finding `_check_mutable_defaults` appends for a function `fname`
(one per offending default). -/
def mutableDefaultFinding (fname : String) : Finding :=
  { type := "Mutable Default Argument", severity := "HIGH",
    description := "Mutable default arguments can cause unexpected behavior",
    function := some fname }

/-- Per-node contribution of `BugPatternDetector._check_mutable_defaults`:
for a `FunctionDef`, one finding per positional default
(`node.args.defaults`) that is a list/dict/set literal; the keyword-only
defaults (`node.args.kw_defaults`) are never inspected. -/
def mutableDefaultEntries (n : Node) : List Finding :=
  match n with
  | .functionDef fname defaults _ _ =>
      (defaults.filter isMutableLiteral).map fun _ => mutableDefaultFinding fname
  | _ => []

/-- Embedding of `BugPatternDetector._check_mutable_defaults`, in walk
order. -/
def check_mutable_defaults (tree : Node) : List Finding :=
  (walk tree).flatMap mutableDefaultEntries

/-- Embedding of `BugPatternDetector._check_unused_variables` (its body is
`pass`: it appends nothing). -/
def check_unused_variables (_tree : Node) : List Finding := []

/-- A Python exception, distinguished the way the detector's control flow
distinguishes them: a `SyntaxError` (the only class
`_detect_python_patterns` catches) or any other exception. -/
inductive PyErr where
  | syntaxErr (msg : String)
  | otherErr (msg : String)
deriving DecidableEq

/-- A pattern check as it runs inside `_detect_python_patterns`'s `try`
block: it may return findings or raise. -/
abbrev Check := Node → Except PyErr (List Finding)

/-- The check sequence `_detect_python_patterns` hard-codes; the built-in
three are total, so they are lifted with `.ok`. -/
def builtinChecks : List Check :=
  [fun t => .ok (check_bare_except t),
   fun t => .ok (check_mutable_defaults t),
   fun t => .ok (check_unused_variables t)]

/-- Embedding of the `try` block of `_detect_python_patterns`, generalized
from the three hard-coded calls to an arbitrary check sequence: the checks
run in order inside ONE `try`; `self.patterns` (`acc`) accumulates across
them; a `SyntaxError` raised by a check reaches the block's single
`except SyntaxError: pass`, after which `detect` returns the findings
accumulated so far; any other exception propagates to the caller. -/
def runChecksFrom (tree : Node) : List Check → List Finding → Except PyErr (List Finding)
  | [], acc => .ok acc
  | c :: cs, acc =>
      match c tree with
      | .ok fs => runChecksFrom tree cs (acc ++ fs)
      | .error (.syntaxErr _) => .ok acc
      | .error e => .error e

/-- Embedding of `BugPatternDetector._detect_python_patterns` over an
arbitrary check sequence: `ast.parse` runs inside the same `try`, so a
parse failure is caught by `except SyntaxError: pass` and leaves
`self.patterns` empty. -/
def detect_python_patterns (checks : List Check) (src : ParseResult) :
    Except PyErr (List Finding) :=
  match src with
  | .syntaxError _ => .ok []
  | .ok tree => runChecksFrom tree checks []

/-- Embedding of `BugPatternDetector.detect`, with the instance state
(`self.patterns`) threaded explicitly: the state is first reset to `[]`
(hence the incoming state `_st` is never read), the Python checks run only
for file type `'.py'`, and the method returns `self.patterns` — the pair
is (returned value, state left behind). -/
def bpDetect (_st : List Finding) (src : ParseResult) (file_type : String) :
    Except PyErr (List Finding × List Finding) :=
  if file_type = ".py" then
    (detect_python_patterns builtinChecks src).map fun fs => (fs, fs)
  else
    .ok ([], [])

/-- The findings `detect` yields on a parsed Python tree (the built-in
checks never raise, so the `.error` case is unreachable). -/
def pythonFindings (tree : Node) : List Finding :=
  match detect_python_patterns builtinChecks (.ok tree) with
  | .ok fs => fs
  | .error _ => []

/-- The `kind` tag of the spec's Finding data model (§3). -/
inductive FindingKind where
  | vulnerability
  | bugPattern
deriving DecidableEq

/-- A finding of the spec's data model (§3): kind, type, severity and
description. -/
structure VulnFinding where
  kind : FindingKind
  vtype : String
  severity : String
  description : String
deriving DecidableEq

/-- The test for a dynamic-evaluation call: a `Call` whose function is the
bare name `eval` or `exec`. -/
def isDynamicEvalCall : Node → Bool
  | .call f _ =>
      match f with
      | .name fname => fname == ("eval") || fname == ("exec")
      | _ => false
  | _ => false

/-- The test for a pickle-style deserialization call: a `Call` whose
function is the attribute `pickle.load`. -/
def isPickleLoadCall : Node → Bool
  | .call f _ =>
      match f with
      | .attribute v a =>
          (match v with | .name m => m == ("pickle") | _ => false) && a == ("load")
      | _ => false
  | _ => false

/-- The finding of the dynamic-code-evaluation rule. -/
def dynamicEvalFinding : VulnFinding :=
  ⟨.vulnerability, "Dynamic Code Evaluation", "CRITICAL",
    "Dynamic evaluation can execute arbitrary code"⟩

/-- The finding of the insecure-deserialization rule. -/
def insecureDeserializationFinding : VulnFinding :=
  ⟨.vulnerability, "Insecure Deserialization", "HIGH",
    "Unpickling untrusted data can execute arbitrary code"⟩

/-- The finding of the hardcoded-credential rule. -/
def hardcodedCredentialFinding : VulnFinding :=
  ⟨.vulnerability, "Hardcoded Credential", "HIGH",
    "A credential-looking name is bound to a literal string"⟩

/-- The test for a credential-looking assignment: a single `Name` target
whose identifier matches a credential keyword, bound to a literal. -/
def isCredentialAssign : Node → Bool
  | .assign targets v =>
      (match targets with
       | [t] =>
          match t with
          | .name id =>
              id == ("password") || id == ("secret") || id == ("api_key") ||
                id == ("token")
          | _ => false
       | _ => false) &&
      (match v with | .constant _ => true | _ => false)
  | _ => false

/-- Modelled from the spec: the repository's `vulnerability_detector.py`
module is missing from the source files (its class
`VulnerabilityDetector` is only imported in `code_guardian/__init__.py`
and called in `examples/basic_usage.py`), so its per-node rules are
modelled from the spec's words (§4.4): a dynamic-code-evaluation call
(`eval`/`exec`) and an insecure-deserialization call
(`pickle.load`-style unpickling) each yield one finding with
`kind = Vulnerability`; a credential-looking name bound to a string
literal yields a hardcoded-credential finding.  The remaining rule
families of §4.4 (weak cryptography, SQL concatenation) are exercised by
no claim and are not modelled. -/
def vulnerabilityEntries (n : Node) : List VulnFinding :=
  if isDynamicEvalCall n then [dynamicEvalFinding]
  else if isPickleLoadCall n then [insecureDeserializationFinding]
  else if isCredentialAssign n then [hardcodedCredentialFinding]
  else []

/-- Modelled from the spec: `VulnerabilityDetector.detect` on a parsed
Python tree, applying the per-node rules over the whole tree. -/
def vulnDetect (tree : Node) : List VulnFinding :=
  (walk tree).flatMap vulnerabilityEntries

def nsize_le_of_mem : ∀ {c : Node} {l : List Node}, c ∈ l → nsize c ≤ nsizeList l := by
  intro c l
  induction l with
  | nil => intro h; cases h
  | cons a l ih =>
    intro h
    rcases List.mem_cons.mp h with h | h
    · subst h; simp [nsizeList]
    · have := ih h; simp [nsizeList]; omega

def nsize_lt_of_mem_children : ∀ {c n : Node}, c ∈ children n → nsize c < nsize n := by
  intro c n hc
  have h₁ := nsize_le_of_mem hc
  have h₂ := nsize_eq_children n
  omega

/-- Structural fold over a tree: `f` at the node plus the recursive sums
over the children; `streeSum f t` is the sum of `f` over every node
anywhere in `t`.  This is the specification-side reading of "anywhere in
the tree", to be compared with the breadth-first `walk` the code uses. -/
def streeSum {M : Type} [AddCommMonoid M] (f : Node → M) (n : Node) : M :=
  f n + ((children n).attach.map (fun c => streeSum f c.1)).sum
termination_by nsize n
decreasing_by exact nsize_lt_of_mem_children c.2

/-- Specification-side count of the nodes satisfying `p` anywhere in a
tree. -/
def streeCount (p : Node → Bool) (t : Node) : Nat :=
  streeSum (fun n => if p n then 1 else 0) t

/-- Specification-side contribution of one node to the boolean-combinator
part of the complexity formula: a `BoolOp` with `N` operands contributes
`N - 1`. -/
def boolOpContrib : Node → Int
  | .boolOp values => (values.length : Int) - 1
  | _ => 0

/-- A tree produced by a successful `ast.parse` gives every `BoolOp` node
at least two operands; this predicate records that validity condition of
parser-produced trees. -/
def boolOpWellformed : Node → Bool
  | .boolOp values => decide (2 ≤ values.length)
  | _ => true

/-- The single-alias import-statement forms claim C2 quantifies over. -/
inductive ImportSpec where
  | plain (x : String)
  | fromModule (m : String) (x : String)
  | relative (x : String)

/-- The statement node of one import form. -/
def specStmt : ImportSpec → Node
  | .plain x => .importStmt [x]
  | .fromModule m x => .importFrom (some m) [x]
  | .relative x => .importFrom none [x]

/-- The qualified name the code actually produces for each form: `X` for
`import X`, `M.X` for `from M import X`, and `.X` (dot-prefixed, not the
bare name) when the module is absent. -/
def specQualifiedName : ImportSpec → String
  | .plain x => x
  | .fromModule m x => m ++ "." ++ x
  | .relative x => "." ++ x

/-- Specification-side contribution of one node to the count of
mutable-default findings naming function `nm`: a `FunctionDef` named `nm`
contributes its number of mutable-literal positional defaults. -/
def mutableDefaultCount (nm : String) : Node → Nat
  | .functionDef fname defaults _ _ =>
      if fname = nm then defaults.countP isMutableLiteral else 0
  | _ => 0

/-- The severity scale of the spec's data model (§3):
LOW < MEDIUM < HIGH < CRITICAL. -/
def severityRank : String → Nat
  | "LOW" => 0
  | "MEDIUM" => 1
  | "HIGH" => 2
  | "CRITICAL" => 3
  | _ => 0

/-- The predicate "a Mutable Default Argument finding naming `nm`". -/
def mutPred (nm : String) (fd : Finding) : Bool :=
  decide (fd.type = ("Mutable Default Argument") ∧ fd.function = some nm)

/-- The per-function condition "no mutable container literal among the
positional defaults" (the keyword-only defaults are unconstrained). -/
def noPositionalMutable : Node → Bool
  | .functionDef _ defaults _ _ => defaults.all fun d => !(isMutableLiteral d)
  | _ => true

/-- A rule engineered to always fault with an exception that is not a
`SyntaxError`. -/
def alwaysFaultCheck : Check := fun _ => .error (.otherErr ("rule fault"))

/-- A rule engineered to always fault with a `SyntaxError`. -/
def alwaysSyntaxFaultCheck : Check := fun _ => .error (.syntaxErr ("rule fault"))

/-- The bare-except rule as a registered (total) check. -/
def bareExceptCheck : Check := fun t => .ok (check_bare_except t)

/-! Concrete trees used as witnesses and counterexamples. -/

/-- `try: pass` with a bare `except:` handler. -/
def bareExceptTree : Node :=
  .module [.tryStmt [.pass] [.exceptHandler none [.pass]] [] []]

/-- `def f(a=[], b={}): pass` — one function with two mutable-literal
positional defaults. -/
def doubleDefaultTree : Node :=
  .module [.functionDef ("f") [.listLit [], .dictLit [] []] [] [.pass]]

/-- `def g(a=[]): pass` — one function with exactly one mutable-literal
positional default. -/
def singleDefaultTree : Node :=
  .module [.functionDef ("g") [.listLit []] [] [.pass]]

/-- `def h(*, a=[]): pass` — the only mutable-literal default is
keyword-only (`kw_defaults`), the positional `defaults` list is empty. -/
def kwOnlyDefaultTree : Node :=
  .module [.functionDef ("h") [] [.listLit []] [.pass]]

/-- `if a and b: pass` — one branch node and one two-operand `BoolOp`. -/
def branchyTree : Node :=
  .module [.ifStmt (.boolOp [.name ("a"), .name ("b")]) [.pass] []]

/-- `def f(): g()` — no branch node and no `BoolOp`. -/
def plainTree : Node :=
  .module [.functionDef ("f") [] [] [.exprStmt (.call (.name ("g")) [])]]

/-- `pass` — a clean Python module. -/
def cleanTree : Node := .module [.pass]

/-- `from . import X` — a relative import (absent module). -/
def relativeImportTree : Node :=
  .module [.importFrom none [("X")]]

/-- `if a:\n    import zz\nimport bb` — an import nested under a branch
followed by a top-level one; breadth-first walking visits `bb` first. -/
def nestedImportTree : Node :=
  .module [.ifStmt (.name ("a")) [.importStmt [("zz")]] [], .importStmt [("bb")]]

/-- The sample source of `examples/basic_usage.py` as its parse tree:
`import pickle`, a function assigning `password = "hardcoded123"` and
`result = eval(data)`, and a function returning `pickle.load(f)` from a
file opened with mode `'rb'`. -/
def sampleTree : Node :=
  .module
    [.importStmt [("pickle")],
     .functionDef ("process_data") [] []
       [.assign [.name ("password")] (.constant ("hardcoded123")),
        .assign [.name ("result")] (.call (.name ("eval")) [.name ("data")]),
        .ret (some (.name ("result")))],
     .functionDef ("load_from_file") [] []
       [.withStmt (.call (.name ("open")) [.name ("filename"), .constant ("rb")])
          (some (.name ("f")))
          [.ret (some (.call (.attribute (.name ("pickle")) ("load")) [.name ("f")]))]]]

end CodeGuardian

namespace CodeGuardian

/-! Bridge lemmas: the breadth-first `walk` of the code against the
structural tree folds of the specification side. -/

theorem streeSum_unfold {M : Type} [AddCommMonoid M] (f : Node → M) (n : Node) :
    streeSum f n = f n + ((children n).map (streeSum f)).sum := by
  rw [streeSum, List.attach_map_val (children n) (streeSum f)]

theorem walkAux_map_sum {M : Type} [AddCommMonoid M] (f : Node → M) (l : List Node) :
    ((walkAux l).map f).sum = (l.map (streeSum f)).sum := by
  induction l using walkAux.induct with
  | case1 => simp [walkAux]
  | case2 n rest ih =>
    rw [walkAux]
    simp only [List.map_cons, List.sum_cons, List.map_append, List.sum_append] at ih ⊢
    rw [ih, streeSum_unfold]
    abel

/-- The sum of `f` over `ast.walk(t)` is the structural sum of `f` over
the tree: the walk reaches every node exactly once. -/
theorem walk_map_sum {M : Type} [AddCommMonoid M] (f : Node → M) (t : Node) :
    ((walk t).map f).sum = streeSum f t := by
  have h := walkAux_map_sum f [t]
  simpa [walk] using h

theorem countP_eq_sum_map {α : Type} (p : α → Bool) (l : List α) :
    l.countP p = (l.map (fun a => if p a then 1 else 0)).sum := by
  induction l with
  | nil => simp
  | cons a l ih =>
    by_cases h : p a = true <;>
      simp [List.countP_cons, ih, h, Nat.add_comm]

/-- Counting over the walk equals the structural count. -/
theorem walk_countP (p : Node → Bool) (t : Node) :
    (walk t).countP p = streeCount p t := by
  rw [countP_eq_sum_map, streeCount, walk_map_sum]

theorem foldl_add_eq_sum (g : Node → Int) (init : Int) (l : List Node) :
    l.foldl (fun c n => c + g n) init = init + (l.map g).sum := by
  induction l generalizing init with
  | nil => simp
  | cons n l ih => simp [ih]; ring

theorem walkAux_childless (l : List Node) (h : ∀ n ∈ l, children n = []) :
    walkAux l = l := by
  induction l using walkAux.induct with
  | case1 => rw [walkAux]
  | case2 n rest ih =>
    have hn : children n = [] := h n (List.mem_cons_self n rest)
    rw [hn, List.append_nil] at ih
    rw [walkAux, hn, List.append_nil, ih]
    intro m hm
    exact h m (List.mem_cons_of_mem n hm)

theorem two_mem_le_length {α : Type} {a b : α} {l : List α}
    (ha : a ∈ l) (hb : b ∈ l) (hab : a ≠ b) : 2 ≤ l.length := by
  rcases l with _ | ⟨x, xs⟩
  · cases ha
  rcases List.mem_cons.mp ha with rfl | ha'
  · rcases List.mem_cons.mp hb with rfl | hb'
    · exact absurd rfl hab
    · have := List.length_pos_of_mem hb'
      simp only [List.length_cons]
      omega
  · have := List.length_pos_of_mem ha'
    simp only [List.length_cons]
    omega

theorem countP_flatMap {α β : Type} (p : α → Bool) (f : β → List α) (l : List β) :
    (l.flatMap f).countP p = (l.map (fun b => (f b).countP p)).sum := by
  induction l with
  | nil => simp
  | cons b l ih => simp [List.countP_append, ih]

theorem complexityContrib_split (n : Node) :
    complexityContrib n = (if isBranchNode n then (1 : Int) else 0) + boolOpContrib n := by
  cases n <;> simp [complexityContrib, boolOpContrib, isBranchNode]

theorem calculate_complexity_eq_walk (t : Node) :
    calculate_complexity t = 1 + ((walk t).map complexityContrib).sum := by
  rw [calculate_complexity, foldl_add_eq_sum]

theorem map_sum_indicator (p : Node → Bool) (l : List Node) :
    (l.map (fun n => if p n then (1 : Int) else 0)).sum = (l.countP p : Int) := by
  induction l with
  | nil => simp
  | cons a l ih =>
    by_cases h : p a = true
    · simp [List.countP_cons, h, ih]
      ring
    · simp [List.countP_cons, h, ih]

theorem sum_map_add_split (f g : Node → Int) (l : List Node) :
    (l.map (fun n => f n + g n)).sum = (l.map f).sum + (l.map g).sum := by
  induction l with
  | nil => simp
  | cons a l ih => simp [ih]; ring

theorem complexity_walk_split (t : Node) :
    ((walk t).map complexityContrib).sum
      = ((walk t).countP isBranchNode : Int) + ((walk t).map boolOpContrib).sum := by
  have hfun : complexityContrib
      = fun n => (if isBranchNode n then (1 : Int) else 0) + boolOpContrib n :=
    funext complexityContrib_split
  rw [hfun, sum_map_add_split, map_sum_indicator]

/-- C1: for every Python source that parses successfully, the computed
cyclomatic complexity equals 1 plus the number of if/while/for/
exception-handler nodes anywhere in the tree plus, for every short-circuit
boolean operation with N operands, N−1; on every parser-producible tree
(each `BoolOp` has at least two operands) it is ≥ 1, and it is exactly 1
when the tree has no branch node and no boolean combinator. -/
theorem complexity_matches_mccabe_formula (t : Node) :
    calculate_complexity t
      = 1 + (streeCount isBranchNode t : Int) + streeSum boolOpContrib t ∧
    ((walk t).all boolOpWellformed = true → 1 ≤ calculate_complexity t) ∧
    ((walk t).countP isBranchNode = 0 → (walk t).countP isBoolOpNode = 0 →
      calculate_complexity t = 1) := by
  refine ⟨?_, ?_, ?_⟩
  · rw [calculate_complexity_eq_walk, complexity_walk_split, walk_countP,
      walk_map_sum boolOpContrib]
    ring
  · intro hwf
    rw [calculate_complexity_eq_walk, complexity_walk_split]
    have h₁ : (0 : Int) ≤ ((walk t).countP isBranchNode : Int) := Int.natCast_nonneg _
    have h₂ : (0 : Int) ≤ ((walk t).map boolOpContrib).sum := by
      apply List.sum_nonneg
      intro x hx
      rcases List.mem_map.mp hx with ⟨n, hn, rfl⟩
      have hok := List.all_eq_true.mp hwf n hn
      cases n <;> simp [boolOpContrib, boolOpWellformed] at hok ⊢
      omega
    omega
  · intro hb hbo
    rw [calculate_complexity_eq_walk, complexity_walk_split, hb]
    have hz : ((walk t).map boolOpContrib).sum = 0 := by
      apply List.sum_eq_zero
      intro x hx
      rcases List.mem_map.mp hx with ⟨n, hn, rfl⟩
      have h1 := List.countP_eq_zero.mp hbo n hn
      cases n <;> simp [boolOpContrib, isBoolOpNode] at h1 ⊢
    rw [hz]
    ring

/-- Witness for C1 at two concrete trees: `if a and b: pass` (well-formed,
complexity ≥ 1) and `def f(): g()` (no branches, no combinators,
complexity exactly 1). -/
theorem complexity_matches_mccabe_formula_witness :
    ((walk branchyTree).all boolOpWellformed = true ∧
      1 ≤ calculate_complexity branchyTree) ∧
    ((walk plainTree).countP isBranchNode = 0 ∧
      (walk plainTree).countP isBoolOpNode = 0 ∧
      calculate_complexity plainTree = 1) := by
  have h₁ : (walk branchyTree).all boolOpWellformed = true := by
    simp [branchyTree, walk, walkAux, children, boolOpWellformed]
  have h₂ : (walk plainTree).countP isBranchNode = 0 := by
    simp [plainTree, walk, walkAux, children, isBranchNode, List.countP_cons]
  have h₃ : (walk plainTree).countP isBoolOpNode = 0 := by
    simp [plainTree, walk, walkAux, children, isBoolOpNode, List.countP_cons]
  exact ⟨⟨h₁, (complexity_matches_mccabe_formula branchyTree).2.1 h₁⟩,
    ⟨h₂, h₃, (complexity_matches_mccabe_formula plainTree).2.2 h₂ h₃⟩⟩

/-- C8: for every Python source that parses successfully, the reported
function count and class count equal the number of function-definition and
class-definition nodes anywhere in the tree, nested definitions
included. -/
theorem function_class_counts_structural (t : Node) :
    count_functions t = streeCount isFunctionDefNode t ∧
    count_classes t = streeCount isClassDefNode t ∧
    analyze_python (.ok t)
      = .metrics (calculate_complexity t) (streeCount isFunctionDefNode t)
          (streeCount isClassDefNode t) (extract_imports t) := by
  refine ⟨walk_countP _ t, walk_countP _ t, ?_⟩
  simp [analyze_python, count_functions, count_classes, ← walk_countP]

theorem specStmt_childless (s : ImportSpec) : children (specStmt s) = [] := by
  cases s <;> rfl

theorem importEntries_specStmt (s : ImportSpec) :
    importEntries (specStmt s) = [specQualifiedName s] := by
  cases s with
  | plain x => rfl
  | fromModule m x => rfl
  | relative x =>
    show [("" ++ ".") ++ x] = [("." : String) ++ x]
    rw [show ("" ++ "." : String) = (".") from rfl]

/-- C2 counterexample: a relative import (`from . import X`) is extracted
as the dot-prefixed `".X"`, not the bare name `"X"`; and for an import
nested under a branch the breadth-first extraction order is not source
order. -/
theorem extract_imports_counterexample :
    extract_imports relativeImportTree = [(".X")] ∧ (".X") ≠ ("X") ∧
    extract_imports nestedImportTree = [("bb"), ("zz")] ∧
    [("bb"), ("zz")] ≠ [("zz"), ("bb")] := by
  refine ⟨?_, by decide, ?_, by decide⟩ <;>
    simp [relativeImportTree, nestedImportTree, extract_imports, walk, walkAux,
      children, importEntries]

/-- C2 amended: for a module whose body is a flat sequence of
single-alias import statements, the extracted list has one entry per statement
in source order; the entry for `import X` is `X`, for `from M import X`
it is `M.X`, and for a relative import (absent module) it is `".X"` —
the dot-joined concatenation with the empty module string, not the bare
name. -/
theorem extract_imports_flat_module (specs : List ImportSpec) :
    extract_imports (.module (specs.map specStmt)) = specs.map specQualifiedName := by
  have hwa : walkAux (specs.map specStmt) = specs.map specStmt := by
    apply walkAux_childless
    intro n hn
    rcases List.mem_map.mp hn with ⟨s, -, rfl⟩
    exact specStmt_childless s
  have hflat : ∀ ss : List ImportSpec,
      (ss.map specStmt).flatMap importEntries = ss.map specQualifiedName := by
    intro ss
    induction ss with
    | nil => rfl
    | cons s ss ih => simp [ih, importEntries_specStmt]
  rw [extract_imports, walk]
  simp only [walkAux, children, List.nil_append]
  rw [hwa]
  simp only [List.flatMap_cons, hflat]
  rfl

/-- C7: on a parse failure the Python analysis returns the
`syntax_error` entry in place of the four numeric metrics, `_analyze_code`
embeds it without any exception propagating, and the bug-pattern detector
yields the empty finding set (never a fault) for that source. -/
theorem syntax_error_degrades_gracefully (m : String) (lc j₁ j₂ j₃ : Nat)
    (st : AnalyzerState) (dst : List Finding) :
    analyze_python (.syntaxError m) = .syntaxError m ∧
    (analyze_code st ⟨lc, .syntaxError m, j₁, j₂, j₃⟩ (".py")).1.pyAnalysis
      = some (.syntaxError m) ∧
    bpDetect dst (.syntaxError m) (".py") = .ok ([], []) := by
  exact ⟨rfl, rfl, rfl⟩

/-- C9: the analyzer's output and the bug-pattern detector's output are
functions of the supplied source and file type only — the instance state
left behind by earlier calls (`self.results`, `self.metrics`,
`self.patterns`) never influences them, so running the analysis twice on
identical input yields identical results. -/
theorem analysis_deterministic (st₁ st₂ : AnalyzerState) (s : Source) (ext : String)
    (d₁ d₂ : List Finding) (src : ParseResult) (ft : String) :
    (analyze_code st₁ s ext).1 = (analyze_code st₂ s ext).1 ∧
    bpDetect d₁ src ft = bpDetect d₂ src ft :=
  ⟨rfl, rfl⟩

/-- C5 counterexample: the bug-pattern detector on a non-Python file type
returns the plain empty finding list — for a `.txt` source whose tree
even contains a bare `except:` it returns exactly what it returns for a
clean Python file, with no "not analyzed" marker distinguishing the
two. -/
theorem unsupported_language_counterexample :
    bpDetect [] (.ok bareExceptTree) (".txt") = .ok ([], []) ∧
    bpDetect [] (.ok cleanTree) (".py") = .ok ([], []) ∧
    check_bare_except bareExceptTree = [bareExceptFinding] := by
  refine ⟨by simp [bpDetect], ?_, ?_⟩
  · simp [bpDetect, detect_python_patterns, runChecksFrom, builtinChecks,
      check_bare_except, check_mutable_defaults, check_unused_variables,
      bareExceptEntries, mutableDefaultEntries, cleanTree, walk, walkAux, children,
      Except.map]
  · simp [check_bare_except, bareExceptTree, walk, walkAux, children, bareExceptEntries]

/-- C5 amended: for every source unit whose file type has no support, the
analysis returns a silent empty result, not an explicit "not analyzed"
marker: the bug-pattern detector returns the plain empty finding list for
every non-`.py` file type, and the analyzer returns the base record with
no analysis section for extensions other than `.py`, `.js`, `.ts`. -/
theorem unsupported_language_silent_empty (st : List Finding) (src : ParseResult)
    (ft : String) (hft : ft ≠ (".py")) (a : AnalyzerState) (s : Source) (ext : String)
    (h₁ : ext ≠ (".py")) (h₂ : ext ≠ (".js")) (h₃ : ext ≠ (".ts")) :
    bpDetect st src ft = .ok ([], []) ∧
    (analyze_code a s ext).1.pyAnalysis = none ∧
    (analyze_code a s ext).1.jsAnalysis = none := by
  refine ⟨by simp [bpDetect, hft], by simp [analyze_code, h₁], ?_⟩
  simp [analyze_code, h₂, h₃]

/-- Witness for C5 (amended) at the file type `.txt` and extension
`.java`. -/
theorem unsupported_language_silent_empty_witness :
    bpDetect [] (.ok cleanTree) (".txt") = .ok ([], []) ∧
    (analyze_code ⟨[], []⟩ ⟨1, .ok cleanTree, 0, 0, 0⟩ (".java")).1.pyAnalysis = none ∧
    (analyze_code ⟨[], []⟩ ⟨1, .ok cleanTree, 0, 0, 0⟩ (".java")).1.jsAnalysis = none :=
  unsupported_language_silent_empty [] (.ok cleanTree) (".txt") (by decide)
    ⟨[], []⟩ ⟨1, .ok cleanTree, 0, 0, 0⟩ (".java") (by decide) (by decide) (by decide)

/-- C4 counterexample: a faulting rule does abort the run for the other
rules — registered before the bare-except rule on a tree that contains a
bare handler, a non-`SyntaxError` fault propagates (nothing is returned),
and a `SyntaxError` fault ends the run with the co-registered rule never
executed, its finding suppressed. -/
theorem rule_isolation_counterexample :
    detect_python_patterns [alwaysFaultCheck, bareExceptCheck] (.ok bareExceptTree)
      = .error (.otherErr ("rule fault")) ∧
    detect_python_patterns [alwaysSyntaxFaultCheck, bareExceptCheck] (.ok bareExceptTree)
      = .ok [] ∧
    check_bare_except bareExceptTree = [bareExceptFinding] := by
  refine ⟨rfl, rfl, ?_⟩
  simp [check_bare_except, bareExceptTree, walk, walkAux, children, bareExceptEntries]

/-- C4 amended: rule isolation does not hold — when a registered rule
faults, the remaining rules are not executed at all: a `SyntaxError`
fault ends the run, which returns only the findings accumulated before
the fault, and any other fault propagates to the caller, suppressing all
output. -/
theorem rule_fault_aborts_run (tree : Node) (r : Check) (cs : List Check)
    (acc : List Finding) :
    (∀ m, r tree = .error (.syntaxErr m) →
      runChecksFrom tree (r :: cs) acc = .ok acc) ∧
    (∀ m, r tree = .error (.otherErr m) →
      runChecksFrom tree (r :: cs) acc = .error (.otherErr m)) := by
  constructor <;> intro m h <;> simp [runChecksFrom, h]

/-- Witness for C4 (amended) at the bare-except tree, with each kind of
faulting rule registered ahead of the bare-except rule. -/
theorem rule_fault_aborts_run_witness :
    runChecksFrom bareExceptTree [alwaysSyntaxFaultCheck, bareExceptCheck] [] = .ok [] ∧
    runChecksFrom bareExceptTree [alwaysFaultCheck, bareExceptCheck] []
      = .error (.otherErr ("rule fault")) :=
  ⟨(rule_fault_aborts_run bareExceptTree alwaysSyntaxFaultCheck [bareExceptCheck] []).1
      ("rule fault") rfl,
   (rule_fault_aborts_run bareExceptTree alwaysFaultCheck [bareExceptCheck] []).2
      ("rule fault") rfl⟩

/-! Machinery for the mutable-default claims (C6, C10). -/

theorem countP_replicate {α : Type} (p : α → Bool) (b : α) (k : Nat) :
    (List.replicate k b).countP p = if p b then k else 0 := by
  induction k with
  | zero => simp
  | succ k ih =>
    by_cases h : p b = true <;>
      simp [List.replicate_succ, List.countP_cons, h, ih]

theorem countP_map_const {α β : Type} (p : β → Bool) (b : β) (l : List α) :
    (l.map fun _ => b).countP p = if p b then l.length else 0 := by
  rw [List.map_const', countP_replicate]

theorem countP_mutableDefaultEntries (nm : String) (n : Node) :
    (mutableDefaultEntries n).countP (mutPred nm) = mutableDefaultCount nm n := by
  cases n
  case functionDef fname defaults kwd body =>
    show ((defaults.filter isMutableLiteral).map fun _ =>
        mutableDefaultFinding fname).countP (mutPred nm)
      = if fname = nm then defaults.countP isMutableLiteral else 0
    rw [countP_map_const]
    by_cases h : fname = nm
    · subst h
      simp [mutPred, mutableDefaultFinding, List.countP_eq_length_filter]
    · simp [mutPred, mutableDefaultFinding, h]
  all_goals rfl

theorem countP_mut_bareExceptEntries (nm : String) (n : Node) :
    (bareExceptEntries n).countP (mutPred nm) = 0 := by
  cases n <;> simp [bareExceptEntries]
  case exceptHandler o b =>
    cases o <;> simp [List.countP_cons, mutPred, bareExceptFinding]

theorem mem_bareExceptEntries {fd : Finding} {n : Node}
    (h : fd ∈ bareExceptEntries n) : fd = bareExceptFinding := by
  cases n <;> simp [bareExceptEntries] at h
  case exceptHandler o b =>
    cases o <;> simp [bareExceptEntries] at h
    exact h

theorem mem_mutableDefaultEntries {fd : Finding} {n : Node}
    (h : fd ∈ mutableDefaultEntries n) : ∃ fname, fd = mutableDefaultFinding fname := by
  cases n <;> simp [mutableDefaultEntries] at h
  case functionDef fname defaults kwd body =>
    rcases h with ⟨d, -, rfl⟩
    exact ⟨fname, rfl⟩

theorem pythonFindings_eq (t : Node) :
    pythonFindings t = check_bare_except t ++ check_mutable_defaults t := by
  simp [pythonFindings, detect_python_patterns, runChecksFrom, builtinChecks,
    check_unused_variables]

/-- C6 counterexample: a function with two mutable-literal positional
defaults (`def f(a=[], b={})`) yields two "Mutable Default Argument"
findings naming it, not exactly one. -/
theorem mutable_default_counterexample :
    (pythonFindings doubleDefaultTree).countP (mutPred ("f")) = 2 ∧ (2 : Nat) ≠ 1 := by
  refine ⟨?_, by decide⟩
  simp [pythonFindings, detect_python_patterns, runChecksFrom, builtinChecks,
    check_bare_except, check_mutable_defaults, check_unused_variables,
    bareExceptEntries, mutableDefaultEntries, doubleDefaultTree, walk, walkAux,
    children, mutPred, mutableDefaultFinding, isMutableLiteral, List.countP_cons]

/-- C6 amended: each function definition yields one "Mutable Default
Argument" finding per mutable container literal among its positional
defaults — the count of such findings naming `nm` equals the structural
count of mutable-literal positional defaults over the `FunctionDef` nodes
named `nm` (in particular, a function with exactly one such default
yields exactly one finding, and one with none yields none) — and every
such finding carries severity HIGH (above MEDIUM on the severity scale)
and names a function. -/
theorem mutable_default_findings (t : Node) (nm : String) :
    (pythonFindings t).countP (mutPred nm) = streeSum (mutableDefaultCount nm) t ∧
    (∀ fd ∈ pythonFindings t, fd.type = ("Mutable Default Argument") →
      fd.severity = ("HIGH") ∧ 1 ≤ severityRank fd.severity ∧ fd.function ≠ none) := by
  constructor
  · rw [pythonFindings_eq, List.countP_append, check_bare_except,
      check_mutable_defaults, countP_flatMap, countP_flatMap]
    have hz : ((walk t).map (fun b => (bareExceptEntries b).countP (mutPred nm))).sum = 0 := by
      apply List.sum_eq_zero
      intro x hx
      rcases List.mem_map.mp hx with ⟨n, -, rfl⟩
      exact countP_mut_bareExceptEntries nm n
    have hfun : (fun b => (mutableDefaultEntries b).countP (mutPred nm))
        = mutableDefaultCount nm := funext (countP_mutableDefaultEntries nm)
    rw [hz, hfun, walk_map_sum]
    omega
  · intro fd hmem htype
    rw [pythonFindings_eq] at hmem
    rcases List.mem_append.mp hmem with hmem | hmem
    · rcases List.mem_flatMap.mp hmem with ⟨n, -, hn⟩
      have := mem_bareExceptEntries hn
      subst this
      simp [bareExceptFinding] at htype
    · rcases List.mem_flatMap.mp hmem with ⟨n, -, hn⟩
      rcases mem_mutableDefaultEntries hn with ⟨fname, rfl⟩
      refine ⟨rfl, by simp [severityRank, mutableDefaultFinding], by
        simp [mutableDefaultFinding]⟩

/-- Witness for C6 (amended) at `def g(a=[]): pass`: the finding the
analysis emits for `g` has severity HIGH, ranks above MEDIUM, and names a
function. -/
theorem mutable_default_findings_witness :
    (mutableDefaultFinding ("g")).severity = ("HIGH") ∧
    1 ≤ severityRank (mutableDefaultFinding ("g")).severity ∧
    (mutableDefaultFinding ("g")).function ≠ none := by
  refine (mutable_default_findings singleDefaultTree ("g")).2
    (mutableDefaultFinding ("g")) ?_ rfl
  rw [pythonFindings_eq]
  refine List.mem_append.mpr (Or.inr ?_)
  simp [check_mutable_defaults, singleDefaultTree, walk, walkAux, children,
    mutableDefaultEntries, isMutableLiteral]

/-- C10: the mutable-default check inspects only positional parameter
defaults: for every tree whose function definitions carry no mutable
container literal among their positional defaults — whatever their
keyword-only defaults hold — the check yields no finding, and the
analysis output contains no "Mutable Default Argument" finding. -/
theorem keyword_only_defaults_not_inspected (t : Node)
    (h : (walk t).all noPositionalMutable = true) :
    check_mutable_defaults t = [] ∧
    ∀ fd ∈ pythonFindings t, fd.type ≠ ("Mutable Default Argument") := by
  have hmut : check_mutable_defaults t = [] := by
    rw [check_mutable_defaults]
    rw [List.flatMap_eq_nil_iff]
    intro n hn
    have hp := List.all_eq_true.mp h n hn
    cases n <;> simp [mutableDefaultEntries, noPositionalMutable] at hp ⊢
    exact hp
  refine ⟨hmut, ?_⟩
  intro fd hmem
  rw [pythonFindings_eq, hmut, List.append_nil] at hmem
  rcases List.mem_flatMap.mp hmem with ⟨n, -, hn⟩
  have := mem_bareExceptEntries hn
  subst this
  simp [bareExceptFinding]

/-- Witness for C10 at `def h(*, a=[]): pass`: the only mutable-literal
default is keyword-only, and no "Mutable Default Argument" finding is
emitted. -/
theorem keyword_only_defaults_not_inspected_witness :
    (walk kwOnlyDefaultTree).all noPositionalMutable = true ∧
    check_mutable_defaults kwOnlyDefaultTree = [] := by
  have h : (walk kwOnlyDefaultTree).all noPositionalMutable = true := by
    simp [kwOnlyDefaultTree, walk, walkAux, children, noPositionalMutable,
      isMutableLiteral]
  exact ⟨h, (keyword_only_defaults_not_inspected kwOnlyDefaultTree h).1⟩

theorem isPickleLoadCall_not_dynamic {n : Node} (h : isPickleLoadCall n = true) :
    isDynamicEvalCall n = false := by
  cases n <;> simp [isPickleLoadCall, isDynamicEvalCall] at h ⊢
  case call f args =>
    cases f <;> simp_all [isPickleLoadCall, isDynamicEvalCall]

/-- C3: for every Python source containing a dynamic-evaluation call
(such as `eval(data)`) and a pickle-style deserialization call, the
modelled vulnerability detection yields at least two findings of kind
Vulnerability, one typed as dynamic-evaluation risk and one typed as
insecure-deserialization risk. -/
theorem vulnerability_detection_two_findings (t : Node)
    (h₁ : (walk t).any isDynamicEvalCall = true)
    (h₂ : (walk t).any isPickleLoadCall = true) :
    (∃ f ∈ vulnDetect t, f.kind = .vulnerability ∧
        f.vtype = ("Dynamic Code Evaluation")) ∧
    (∃ f ∈ vulnDetect t, f.kind = .vulnerability ∧
        f.vtype = ("Insecure Deserialization")) ∧
    2 ≤ (vulnDetect t).length := by
  rcases List.any_eq_true.mp h₁ with ⟨n₁, hn₁, he₁⟩
  rcases List.any_eq_true.mp h₂ with ⟨n₂, hn₂, he₂⟩
  have hmem₁ : dynamicEvalFinding ∈ vulnDetect t := by
    refine List.mem_flatMap.mpr ⟨n₁, hn₁, ?_⟩
    simp [vulnerabilityEntries, he₁]
  have hmem₂ : insecureDeserializationFinding ∈ vulnDetect t := by
    refine List.mem_flatMap.mpr ⟨n₂, hn₂, ?_⟩
    simp [vulnerabilityEntries, he₂, isPickleLoadCall_not_dynamic he₂]
  refine ⟨⟨dynamicEvalFinding, hmem₁, rfl, rfl⟩,
    ⟨insecureDeserializationFinding, hmem₂, rfl, rfl⟩, ?_⟩
  exact two_mem_le_length hmem₁ hmem₂ (by decide)

/-- Witness for C3 at the sample source of `examples/basic_usage.py`. -/
theorem vulnerability_detection_two_findings_witness :
    (walk sampleTree).any isDynamicEvalCall = true ∧
    (walk sampleTree).any isPickleLoadCall = true ∧
    2 ≤ (vulnDetect sampleTree).length := by
  have h₁ : (walk sampleTree).any isDynamicEvalCall = true := by
    simp [sampleTree, walk, walkAux, children, isDynamicEvalCall]
  have h₂ : (walk sampleTree).any isPickleLoadCall = true := by
    simp [sampleTree, walk, walkAux, children, isPickleLoadCall]
  exact ⟨h₁, h₂, (vulnerability_detection_two_findings sampleTree h₁ h₂).2.2⟩

end CodeGuardian
